import Mathlib

/-!
Verification of the mdview repository's cross-process contract and state
logic against its specification.

The embedding is shallow: each relevant source function is translated into
an executable Lean definition over explicit state.  Pixel and point
dimensions in the PDF export are modelled as exact rationals (the source
computes with JavaScript numbers; the pagination arithmetic is specified
and verified in exact arithmetic).  Filesystem and OS effects are modelled
by explicit oracle parameters (functions describing what exists on disk,
whether an external helper succeeds, and so on), and each handler becomes
a pure state transition.
-/

namespace Mdview

/-! ## PDF export (`generatePDF` in the main-ui variant)

The source captures the rendered content as a canvas of `imgWidth ×
imgHeight` pixels, then slices it into horizontal bands.  A page is
recorded here by the source-pixel band it draws: `sourceY` is the top of
the band in source pixels and `sliceHeight` its height. -/

structure PDFPage where
  sourceY : ℚ
  sliceHeight : ℚ
deriving DecidableEq, Repr

/-- The `while (remainingHeight > 0)` loop of `generatePDF`, with an
explicit iteration budget (the loop's termination is proved separately:
`pdfFuel` iterations always suffice).  Each pass emits the band starting
at `y` of height `min remaining step` where `step = usableHeight / scale`,
exactly as `sliceHeight = Math.min(remainingHeight, usableHeight / scale)`
in the source. -/
def pdfPagesGo : Nat → ℚ → ℚ → ℚ → List PDFPage
  | 0, _, _, _ => []
  | n + 1, step, y, remaining =>
    if 0 < remaining then
      ⟨y, min remaining step⟩ ::
        pdfPagesGo n step (y + min remaining step) (remaining - min remaining step)
    else []

/-- Iteration budget for the slicing loop: `⌈remaining / step⌉`. -/
def pdfFuel (step r : ℚ) : Nat := (Int.ceil (r / step)).toNat

def pdfPages (step y r : ℚ) : List PDFPage := pdfPagesGo (pdfFuel step r) step y r

/-- Definition of `generatePDF` from the main-ui source, reduced to its pagination
decisions: US Letter geometry (612×792 pt, 36 pt margins), scale =
usableWidth / imgWidth, a single page when the scaled height fits, and
otherwise the band-slicing loop starting at source row 0. -/
def generatePDF (imgWidth imgHeight : ℚ) : List PDFPage :=
  let pageWidth : ℚ := 612
  let pageHeight : ℚ := 792
  let margin : ℚ := 36
  let usableWidth := pageWidth - margin * 2
  let usableHeight := pageHeight - margin * 2
  let scale := usableWidth / imgWidth
  let scaledHeight := imgHeight * scale
  if scaledHeight ≤ usableHeight then
    [⟨0, imgHeight⟩]
  else
    pdfPages (usableHeight / scale) 0 imgHeight

/-- Predicate `covers a b pages` states that the source-pixel bands of `pages`, in
list order, exactly tile the interval `[a, b)`: the first band starts at
`a`, each band is nonempty and starts where the previous one ended, and
the last band ends at `b`.  This is the "no gap, no overlap, no pixel
dropped" property. -/
def covers : ℚ → ℚ → List PDFPage → Prop
  | a, b, [] => a = b
  | a, b, p :: ps => p.sourceY = a ∧ 0 < p.sliceHeight ∧ covers (a + p.sliceHeight) b ps

instance coversDecidable : ∀ (l : List PDFPage) (a b : ℚ), Decidable (covers a b l)
  | [], a, b => inferInstanceAs (Decidable (a = b))
  | p :: ps, a, b =>
    have : Decidable (covers (a + p.sliceHeight) b ps) := coversDecidable ps _ _
    inferInstanceAs (Decidable (_ ∧ _ ∧ _))

/-! ## File resolution (`readFile` in `src/bun/index.ts`)

The filesystem is abstracted by an oracle record: `resolveAbs` models
`resolve` from `path` (relative → absolute), `realpath` models
`realpathSync` (`none` when it throws), `readUtf8` models
`readFileSync(·, "utf-8")` (`none` when it throws), and `dirname` models
`dirname`. -/

structure FsModel where
  resolveAbs : String → String
  realpath : String → Option String
  readUtf8 : String → Option String
  dirname : String → String

structure FileRes where
  content : String
  path : String
  dir : String
deriving DecidableEq, Repr

/-- Definition of `readFile` from `src/bun/index.ts`: resolve the argument to absolute
form, canonicalize it with `realpathSync` (throwing a "Cannot resolve
path" error on failure), read the canonical path as UTF-8 (throwing a
"Cannot read file" error on failure), and return the content together
with the canonical path and its parent directory. -/
def readFile (fs : FsModel) (p : String) : Except String FileRes :=
  let resolved := fs.resolveAbs p
  match fs.realpath resolved with
  | none => Except.error ("Cannot resolve path " ++ p)
  | some canonical =>
    match fs.readUtf8 canonical with
    | none => Except.error ("Cannot read file " ++ canonical)
    | some content => Except.ok ⟨content, canonical, fs.dirname canonical⟩

/-! ## Font-preference persistence (`cli.ts`, save-font block)

The persisted settings object; the file on disk is `none` when absent,
`some s` when it holds the serialized form of `s`. -/

structure SettingsFile where
  font : Option String
  fontSize : Option Nat
deriving DecidableEq, Repr

/-- The object `cli.ts` serializes: `JSON.stringify({ font: values.font })`
— only the font field, nothing merged in from the existing file. -/
def cliFontPayload (font : String) : SettingsFile := { font := some font, fontSize := none }

/-- The save-font block of `cli.ts`: attempt `Bun.write`; on failure,
`mkdirSync(configDir, { recursive: true })` and retry once; on a second
failure print a warning to stderr and continue (nothing is thrown, no
value is returned).  `firstWriteFails` / `secondWriteFails` are oracles
for the two write attempts; the result is the new file contents paired
with whether the warning was printed. -/
def saveFontPref (prev : Option SettingsFile) (font : String)
    (firstWriteFails secondWriteFails : Bool) : Option SettingsFile × Bool :=
  if firstWriteFails then
    if secondWriteFails then (prev, true)
    else (some (cliFontPayload font), false)
  else (some (cliFontPayload font), false)

/-! ## CLI entry point (`cli.ts`)

`runCli` models the whole script as a pure function from the parsed
arguments and a filesystem/OS oracle to the observable outcome: the
process exit code, the lines printed to stderr, and the files an `open`
process was spawned for. -/

def FONT_NAMES : List String := ["system", "inter", "serif", "sans", "mono", "readable"]

structure CliArgs where
  help : Bool
  font : Option String
  positionals : List String

structure CliEnv where
  fileExists : String → Bool
  openFails : String → Bool
  appFound : Bool

structure CliOutcome where
  exitCode : Nat
  stderrLines : List String
  opened : List String
deriving DecidableEq, Repr

/-- JavaScript truthiness of an optional string (`undefined`, `null` and
`""` are falsy). -/
def jsTruthy : Option String → Bool
  | none => false
  | some s => s ≠ ""

/-- Prefix test `String.startsWith`, modelled over the underlying character lists (so
that it evaluates by kernel reduction). -/
def strStartsWith (s pre : String) : Bool := pre.data.isPrefixOf s.data

/-- The per-file loop at the end of `cli.ts`: a file that does not exist
prints `File not found: …` and `continue`s; an existing file is opened,
and a failing `open` prints `Failed to open …`.  Neither failure touches
the exit code. -/
def processFiles (env : CliEnv) : List String → List String × List String
  | [] => ([], [])
  | f :: rest =>
    if env.fileExists f then
      let (errs, opened) := processFiles env rest
      if env.openFails f then (("Failed to open " ++ f) :: errs, f :: opened)
      else (errs, f :: opened)
    else
      let (errs, opened) := processFiles env rest
      (("File not found: " ++ f) :: errs, opened)

/-- Model of `cli.ts` end to end: help (or an empty file list) prints usage and
exits with `0` for `--help`, `1` otherwise; a truthy font outside
`FONT_NAMES` exits `1`; a missing app bundle exits `1`; otherwise the
file loop runs and the process ends with exit code `0`. -/
def runCli (args : CliArgs) (env : CliEnv) : CliOutcome :=
  if args.help ∨ args.positionals = [] then
    { exitCode := if args.help then 0 else 1, stderrLines := [], opened := [] }
  else if jsTruthy args.font ∧ FONT_NAMES.contains (args.font.getD "") = false then
    { exitCode := 1, stderrLines := ["Unknown font: " ++ args.font.getD ""], opened := [] }
  else if env.appFound = false then
    { exitCode := 1, stderrLines := ["Could not find mdview.app."], opened := [] }
  else
    let res := processFiles env args.positionals
    { exitCode := 0, stderrLines := res.1, opened := res.2 }

/-! ## Relative-image resolution (`renderMarkdown` in `src/main.js`)

The per-`img` rewriting applied when a base directory is set.  The source
reads `src = img.getAttribute("src")` and tests JS truthiness of `src`
before each prefix test, so the empty string is left alone. -/

/-- The `src` rewriting of `renderMarkdown` (`src/main.js`): a truthy
`src` starting with none of `"http"`, `"data:"`, `"/"` becomes
`asset://localhost/ + dir + / + src`; a truthy `src` starting with `"/"`
becomes `asset://localhost + src`; everything else is untouched. -/
def rewriteImgSrc (dir src : String) : String :=
  if src ≠ "" ∧ ¬strStartsWith src "http" ∧ ¬strStartsWith src "data:" ∧ ¬strStartsWith src "/" then
    "asset://localhost/" ++ dir ++ "/" ++ src
  else if src ≠ "" ∧ strStartsWith src "/" then
    "asset://localhost" ++ src
  else
    src

/-! ## Render-surface session state (main-ui `index.ts` / `main.js`)

`ViewState` holds the webview's module-level mutable state together with
the requests/messages it has issued to the Host, so that "sends no
message" claims are equalities on the whole state. -/

inductive SurfaceEffect where
  | copyToClipboard (text : String)
  | revealInFinder (filePath : String)
  | setWindowTitle (title : String)
  | setFileMenuEnabledMsg (enabled : Bool)
  | findProjectRootReq (filePath : String)
deriving DecidableEq, Repr

structure ViewState where
  currentFilePath : Option String
  currentBaseDir : Option String
  currentProjectRoot : Option String
  contentHTML : String
  effects : List SurfaceEffect
deriving DecidableEq, Repr

/-- The error panel installed by `openFile`'s catch block. -/
def errorPanel (err : String) : String :=
  "<div id=\"welcome\"><h1>Error</h1><p>" ++ err ++ "</p></div>"

/-- Definition of `openFile` from the main-ui source, with the `readFile` round-trip
already resolved to `result` (ok or error) and the external markdown
renderer abstracted as `render`.  On success it stores the canonical path
and directory, renders, sets the window title from the path's last `/`
component, requests the project root and enables the file menu.  The
catch block only replaces the content area with an error panel. -/
def openFileView (render : String → String) (st : ViewState)
    (result : Except String FileRes) : ViewState :=
  match result with
  | Except.error err => { st with contentHTML := errorPanel err }
  | Except.ok r =>
    { st with
      currentFilePath := some r.path
      currentBaseDir := some r.dir
      contentHTML := render r.content
      effects := st.effects ++
        [SurfaceEffect.setWindowTitle (((r.path.splitOn "/").getLast?.getD "") ++ " — mdview"),
         SurfaceEffect.findProjectRootReq r.path,
         SurfaceEffect.setFileMenuEnabledMsg true] }

/-- The `menuAction` message handler of the main-ui source: it returns
immediately unless `currentFilePath` is truthy, and otherwise issues the
host request matching the action (copy-path actions guard their own field
with a truthiness test as well).  Unlisted actions fall through the
`switch` and do nothing. -/
def menuActionView (st : ViewState) (action : String) : ViewState :=
  if jsTruthy st.currentFilePath = false then st
  else if action = "copy_file_path" then
    { st with effects := st.effects ++ [SurfaceEffect.copyToClipboard (st.currentFilePath.getD "")] }
  else if action = "copy_dir_path" then
    if jsTruthy st.currentBaseDir then
      { st with effects := st.effects ++ [SurfaceEffect.copyToClipboard (st.currentBaseDir.getD "")] }
    else st
  else if action = "copy_project_path" then
    if jsTruthy st.currentProjectRoot then
      { st with effects := st.effects ++ [SurfaceEffect.copyToClipboard (st.currentProjectRoot.getD "")] }
    else st
  else if action = "reveal_finder" then
    { st with effects := st.effects ++ [SurfaceEffect.revealInFinder (st.currentFilePath.getD "")] }
  else st

/-! ## Project-root discovery (`findProjectRoot` in `src/bun/index.ts`)

An absolute path is represented by its list of components with the
innermost component first, so `/x/y` is `["y", "x"]` and the filesystem
root is `[]`.  `dirname` is then `List.tail` (and `dirname` of the root
is the root itself, matching `dirname("/") == "/"`).  The `.git` probe
`existsSync(join(dir, ".git"))` is the oracle `git`. -/

/-- Number of directories on the chain from the filesystem root to the
path, both ends included: `depth [] = 1` (the root itself), `depth /x/y =
3`. -/
def pathDepth (p : List String) : Nat := p.length + 1

/-- The preamble of `findProjectRoot`: `statSync` the input; if it is a
regular file, or `statSync` throws, start from `dirname(input)`; if it is
an existing directory start from the input itself. -/
def startDir (isExistingDir : Bool) (p : List String) : List String :=
  if isExistingDir then p else p.tail

/-- The `while (true)` ancestor walk of `findProjectRoot`, with an
explicit iteration budget: probe `dir/.git`, return the directory on a
hit; otherwise step to the parent, breaking (result `null`) when
`parent(dir) == dir`, i.e. at the filesystem root.  `none` means the
budget was exhausted before the loop finished; the termination theorem
shows `pathDepth` iterations always suffice. -/
def rootLoopGo (git : List String → Bool) : Nat → List String → Option (Option (List String))
  | 0, _ => none
  | n + 1, dir =>
    if git dir then some (some dir)
    else
      if dir.tail = dir then some none
      else rootLoopGo git n dir.tail

/-- Definition of `findProjectRoot`, run with the provably sufficient iteration
budget. -/
def findProjectRoot (git : List String → Bool) (isExistingDir : Bool)
    (p : List String) : Option (List String) :=
  (rootLoopGo git (pathDepth (startDir isExistingDir p)) (startDir isExistingDir p)).getD none

/-- Modelled from the spec's words for comparison ("nearest ancestor
directory containing a version-control marker"): the innermost
ancestor-or-self of `d` satisfying `git`. -/
def nearestGitAncestor (git : List String → Bool) : List String → Option (List String)
  | [] => if git [] then some [] else none
  | a :: t => if git (a :: t) then some (a :: t) else nearestGitAncestor git t

/-! ## Host process: menu state and dispatch (`src/bun/index.ts`)

The native menu handed to `ApplicationMenu.setApplicationMenu` is
embedded as a tree of items; `menuDescription` is the literal transcription
of `buildMenu`'s argument as a function of `menuState`.  Items written in
the source without `enabled`/`checked` default to enabled and
unchecked. -/

inductive MenuLeaf where
  | sep : MenuLeaf
  | roleItem (label : Option String) (role : String) : MenuLeaf
  | actionItem (label action : String) (accelerator : Option String)
      (enabled checked : Bool) : MenuLeaf
deriving DecidableEq, Repr

inductive MenuNode where
  | leaf (item : MenuLeaf) : MenuNode
  | sub (label : String) (items : List MenuLeaf) : MenuNode
deriving DecidableEq, Repr

structure TopMenu where
  label : Option String
  submenu : List MenuNode
deriving DecidableEq, Repr

structure MenuState where
  fileMenuEnabled : Bool
  checkedFont : String
  mdAssociated : Bool
deriving DecidableEq, Repr

def mSep : MenuNode := MenuNode.leaf MenuLeaf.sep

def mRole (label : Option String) (role : String) : MenuNode :=
  MenuNode.leaf (MenuLeaf.roleItem label role)

def mAction (label action : String) (accelerator : Option String)
    (enabled checked : Bool) : MenuNode :=
  MenuNode.leaf (MenuLeaf.actionItem label action accelerator enabled checked)

/-- The menu layout built by `buildMenu`, as a pure function of
`menuState`. -/
def menuDescription (ms : MenuState) : List TopMenu :=
  [ { label := none, submenu :=
      [ mRole (some "About mdview") "hide",
        mSep,
        mRole (some "Hide mdview") "hide",
        mRole (some "Hide Others") "hideOthers",
        mRole (some "Show All") "showAll",
        mSep,
        mRole (some "Quit mdview") "quit" ] },
    { label := some "File", submenu :=
      [ mAction "Open…" "open_file" (some "o") true false,
        mSep,
        mAction "Copy File Path" "copy_file_path" (some "shift+c")
          ms.fileMenuEnabled false,
        mAction "Copy Containing Folder Path" "copy_dir_path" none
          ms.fileMenuEnabled false,
        mAction "Copy Project Path" "copy_project_path" none
          ms.fileMenuEnabled false,
        mSep,
        mAction "Reveal in Finder" "reveal_finder" (some "shift+r")
          ms.fileMenuEnabled false,
        mSep,
        mAction "Export as PDF…" "export_pdf" (some "p")
          ms.fileMenuEnabled false ] },
    { label := some "Edit", submenu :=
      [ mRole none "undo",
        mRole none "redo",
        mSep,
        mRole none "cut",
        mRole none "copy",
        mRole none "paste",
        mRole none "selectAll" ] },
    { label := some "View", submenu :=
      [ MenuNode.sub "Font"
        [ MenuLeaf.actionItem "System Default" "font_system" none true
            (ms.checkedFont = "font_system"),
          MenuLeaf.actionItem "Inter" "font_inter" none true
            (ms.checkedFont = "font_inter"),
          MenuLeaf.sep,
          MenuLeaf.actionItem "Serif" "font_serif" none true
            (ms.checkedFont = "font_serif"),
          MenuLeaf.actionItem "Sans-serif" "font_sans" none true
            (ms.checkedFont = "font_sans"),
          MenuLeaf.actionItem "Monospace" "font_mono" none true
            (ms.checkedFont = "font_mono"),
          MenuLeaf.actionItem "Readable" "font_readable" none true
            (ms.checkedFont = "font_readable") ] ] },
    { label := some "Tools", submenu :=
      [ mAction "Install Command Line Tool…" "install_cli" none true false,
        mAction "Associate .md Files with mdview" "associate_md" none true
          ms.mdAssociated ] } ]

/-- One-way messages the Host sends to the Render Surface
(`win.webview.rpc.send.…`). -/
inductive WebMsg where
  | openFileMsg (filePath : String)
  | setFontMsg (fontId : String)
  | menuActionMsg (action : String)
  | showErrorMsg (message : String)
  | cliInstallResultMsg (result : String)
deriving DecidableEq, Repr

structure HostState where
  menuState : MenuState
  nativeMenu : List TopMenu
  sentToWebview : List WebMsg
deriving DecidableEq, Repr

/-- Definition of `buildMenu()`: replace the native menu with the projection of the
current `menuState`. -/
def buildMenu (st : HostState) : HostState :=
  { st with nativeMenu := menuDescription st.menuState }

/-- The `syncFontMenu` message handler: mutate `menuState.checkedFont`,
then rebuild the menu. -/
def syncFontMenuH (st : HostState) (fontId : String) : HostState :=
  buildMenu { st with menuState := { st.menuState with checkedFont := fontId } }

/-- The `setFileMenuEnabled` message handler: mutate
`menuState.fileMenuEnabled`, then rebuild the menu. -/
def setFileMenuEnabledH (st : HostState) (enabled : Bool) : HostState :=
  buildMenu { st with menuState := { st.menuState with fileMenuEnabled := enabled } }

/-- The `setMdAssociation` request handler: run the external helper
(outcome given by the oracle `helperOk`); on success record the new
association state, rebuild the menu and answer `enable`; on failure throw
the helper's error without touching any state. -/
def setMdAssociationH (st : HostState) (enable helperOk : Bool)
    (helperErr : String) : HostState × Except String Bool :=
  if helperOk then
    (buildMenu { st with menuState := { st.menuState with mdAssociated := enable } },
     Except.ok enable)
  else (st, Except.error helperErr)

/-- Oracles for the external operations a menu click can trigger. -/
structure ClickEnv where
  dialogResult : Option String
  installResult : String
  assocOk : Bool
  assocErr : String

def exportPdfUnsupportedMsg : String :=
  "Export as PDF is not yet supported.\n\nCurrent options:\n- Use the browser print dialog (Cmd+P from within the webview) and choose Save as PDF"

/-- The `application-menu-clicked` dispatch handler: the if-chain of
`src/bun/index.ts` in source order.  An action matching no branch falls
off the end of the handler. -/
def applicationMenuClicked (env : ClickEnv) (st : HostState) (action : String) : HostState :=
  if action = "open_file" then
    match env.dialogResult with
    | some p => { st with sentToWebview := st.sentToWebview ++ [WebMsg.openFileMsg p] }
    | none => st
  else if action = "install_cli" then
    { st with sentToWebview := st.sentToWebview ++ [WebMsg.cliInstallResultMsg env.installResult] }
  else if action = "associate_md" then
    let newState := !st.menuState.mdAssociated
    if env.assocOk then
      buildMenu { st with menuState := { st.menuState with mdAssociated := newState } }
    else
      { st with sentToWebview := st.sentToWebview ++ [WebMsg.showErrorMsg env.assocErr] }
  else if action = "export_pdf" then
    { st with sentToWebview := st.sentToWebview ++ [WebMsg.showErrorMsg exportPdfUnsupportedMsg] }
  else if strStartsWith action "font_" then
    let st1 := buildMenu { st with menuState := { st.menuState with checkedFont := action } }
    { st1 with sentToWebview := st1.sentToWebview ++ [WebMsg.setFontMsg action] }
  else if action = "copy_file_path" ∨ action = "copy_dir_path" ∨
      action = "copy_project_path" ∨ action = "reveal_finder" then
    { st with sentToWebview := st.sentToWebview ++ [WebMsg.menuActionMsg action] }
  else st

/-- The menu-consistency invariant: the native menu is the projection of
the current `menuState`. -/
def menuInv (st : HostState) : Prop := st.nativeMenu = menuDescription st.menuState

/-! # Theorems -/

/-! ## C1: PDF pagination -/

theorem pdfPagesGo_zero_r (n : Nat) (step y : ℚ) : pdfPagesGo n step y 0 = [] := by
  cases n <;> simp [pdfPagesGo]

theorem pdfPagesGo_spec (n : Nat) : ∀ (step y r : ℚ), 0 < step → 0 < r →
    (Int.ceil (r / step)).toNat ≤ n →
    covers y (y + r) (pdfPagesGo n step y r) ∧
    (pdfPagesGo n step y r).length = (Int.ceil (r / step)).toNat := by
  induction n with
  | zero =>
    intro step y r hs hr hn
    exfalso
    have h1 : 0 < Int.ceil (r / step) := Int.ceil_pos.mpr (div_pos hr hs)
    omega
  | succ n ih =>
    intro step y r hs hr hn
    rw [pdfPagesGo, if_pos hr]
    by_cases hrs : r ≤ step
    · have hmin : min r step = r := min_eq_left hrs
      have hceil : Int.ceil (r / step) = 1 := by
        rw [Int.ceil_eq_iff]
        constructor
        · simpa using div_pos hr hs
        · simpa using (div_le_one hs).mpr hrs
      rw [hmin, sub_self, pdfPagesGo_zero_r]
      refine ⟨⟨rfl, hr, ?_⟩, ?_⟩
      · show y + r = y + r
        rfl
      · simp [hceil]
    · push_neg at hrs
      have hmin : min r step = step := min_eq_right (le_of_lt hrs)
      have hr' : 0 < r - step := sub_pos.mpr hrs
      have hdiv : (r - step) / step = r / step - 1 := by
        rw [sub_div, div_self (ne_of_gt hs)]
      have hceil : Int.ceil ((r - step) / step) = Int.ceil (r / step) - 1 := by
        rw [hdiv, Int.ceil_sub_one]
      have h2 : (1 : ℤ) < Int.ceil (r / step) := by
        refine Int.lt_ceil.mpr ?_
        push_cast
        exact (one_lt_div hs).mpr hrs
      have hn' : (Int.ceil ((r - step) / step)).toNat ≤ n := by
        rw [hceil]; omega
      obtain ⟨hcov, hlen⟩ := ih step (y + step) (r - step) hs hr' hn'
      rw [hmin]
      refine ⟨⟨rfl, hs, ?_⟩, ?_⟩
      · have hsum : y + step + (r - step) = y + r := by ring
        rwa [hsum] at hcov
      · rw [List.length_cons, hlen, hceil]
        omega

theorem pdfPages_spec (step y r : ℚ) (hs : 0 < step) (hr : 0 < r) :
    covers y (y + r) (pdfPages step y r) ∧
    (pdfPages step y r).length = (Int.ceil (r / step)).toNat :=
  pdfPagesGo_spec (pdfFuel step r) step y r hs hr le_rfl

/-- C1: with page size 612×792 pt and margin 36 (usable 540×720) and
`scale = 540 / w`, `generatePDF` on an image of width `w > 0` and height
`h > 0` emits exactly one page when `h * scale ≤ 720`; when
`h * scale = k * 720 + r` with `0 < r ≤ 720` it emits exactly `k + 1`
pages; and in every case the source-pixel bands of the emitted pages, in
page order, tile `[0, h)` with no gap, no overlap and no pixel
dropped. -/
theorem generatePDF_pagination (w h : ℚ) (hw : 0 < w) (hh : 0 < h) :
    covers 0 h (generatePDF w h) ∧
    (h * (540 / w) ≤ 720 → generatePDF w h = [⟨0, h⟩]) ∧
    (∀ (k : ℕ) (r : ℚ), h * (540 / w) = k * 720 + r → 0 < r → r ≤ 720 →
      (generatePDF w h).length = k + 1) := by
  have hgen : generatePDF w h =
      if h * (540 / w) ≤ 720 then [⟨0, h⟩] else pdfPages (720 / (540 / w)) 0 h := by
    unfold generatePDF
    norm_num
  by_cases hle : h * (540 / w) ≤ 720
  · rw [hgen, if_pos hle]
    refine ⟨⟨rfl, hh, ?_⟩, fun _ => rfl, ?_⟩
    · show 0 + h = h
      rw [zero_add]
    · intro k r hk hr0 hr720
      have h1 : (k : ℚ) * 720 + r ≤ 720 := hk ▸ hle
      have h2 : (k : ℚ) < 1 := by nlinarith
      have h3 : k = 0 := by exact_mod_cast Nat.lt_one_iff.mp (by exact_mod_cast h2)
      simp [h3]
  · rw [hgen, if_neg hle]
    have hscale : (0 : ℚ) < 540 / w := div_pos (by norm_num) hw
    have hstep : (0 : ℚ) < 720 / (540 / w) := div_pos (by norm_num) hscale
    obtain ⟨hcov, hlen⟩ := pdfPages_spec (720 / (540 / w)) 0 h hstep hh
    rw [zero_add] at hcov
    refine ⟨hcov, fun hc => absurd hc hle, ?_⟩
    intro k r hk hr0 hr720
    have hdiv : h / (720 / (540 / w)) = h * (540 / w) / 720 := by
      rw [div_div_eq_mul_div]
    have hsplit : h * (540 / w) / 720 = (k : ℚ) + r / 720 := by
      rw [hk, add_div, mul_div_cancel_right₀ _ (by norm_num : (720 : ℚ) ≠ 0)]
    have hceilr : Int.ceil (r / 720) = 1 := by
      rw [Int.ceil_eq_iff]
      constructor
      · simpa using div_pos hr0 (by norm_num : (0 : ℚ) < 720)
      · simpa using (div_le_one (by norm_num : (0 : ℚ) < 720)).mpr hr720
    have hceil : Int.ceil (h / (720 / (540 / w))) = (k : ℤ) + 1 := by
      rw [hdiv, hsplit, add_comm, Int.ceil_add_nat, hceilr]
      ring
    rw [hlen, hceil]
    omega

/-- Witness for C1 at `w = 540`, `h = 1500` (scale 1, three pages:
bands `[0,720)`, `[720,1440)`, `[1440,1500)`, with `k = 2`,
`r = 60`). -/
theorem generatePDF_pagination_witness :
    covers 0 1500 (generatePDF 540 1500) ∧ (generatePDF 540 1500).length = 2 + 1 := by
  have h := generatePDF_pagination 540 1500 (by norm_num) (by norm_num)
  exact ⟨h.1, h.2.2 2 60 (by norm_num) (by norm_num) (by norm_num)⟩

/-! ## C2: readFile -/

/-- C2: when `realpathSync` succeeds on the resolved input and the
canonical path reads as UTF-8, `readFile` returns the decoded content,
the canonical absolute path (canonicalization applied to the resolved
absolute form of the input, in that order) and the parent directory of
the canonical path. -/
theorem readFile_spec (fs : FsModel) (p canonical content : String)
    (hcanon : fs.realpath (fs.resolveAbs p) = some canonical)
    (hread : fs.readUtf8 canonical = some content) :
    readFile fs p = Except.ok ⟨content, canonical, fs.dirname canonical⟩ := by
  simp [readFile, hcanon, hread]

/-- Witness for C2 on a concrete filesystem oracle. -/
theorem readFile_spec_witness :
    readFile
      { resolveAbs := fun s => "/abs/" ++ s,
        realpath := fun s => some ("/real" ++ s),
        readUtf8 := fun _ => some "# hi",
        dirname := fun _ => "/real/abs" } "a.md"
      = Except.ok ⟨"# hi", "/real/abs/a.md", "/real/abs"⟩ :=
  readFile_spec _ "a.md" "/real/abs/a.md" "# hi" rfl rfl

/-! ## C3: font-preference persistence from the CLI -/

/-- C3 counterexample: the claim says saving a font is a read-modify-write
merge that leaves every other persisted field (in particular the size)
unchanged.  With an existing persisted object `{font: system, size: 16}`,
saving `serif` (both writes succeeding) leaves a file whose size field is
`none`, not `some 16`: the CLI overwrites the whole object with
`{font: serif}`. -/
theorem saveFontPref_not_merge :
    (saveFontPref (some ⟨some "system", some 16⟩) "serif" false false).1
      = some ⟨some "serif", none⟩ ∧
    some (⟨some "serif", none⟩ : SettingsFile)
      ≠ some (⟨some "serif", some 16⟩ : SettingsFile) :=
  ⟨rfl, by decide⟩

/-- C3 amended: saving a font from the CLI overwrites the settings file
with an object containing only the font field (any persisted size is
lost); if the first write fails the directory is created recursively and
the write retried once, and a second failure leaves the file unchanged
and is reported as a stderr warning, never thrown. -/
theorem saveFontPref_spec (prev : Option SettingsFile) (font : String) (f1 f2 : Bool) :
    ((f1 = false ∨ f2 = false) →
      saveFontPref prev font f1 f2 = (some ⟨some font, none⟩, false)) ∧
    (f1 = true → f2 = true → saveFontPref prev font f1 f2 = (prev, true)) := by
  cases f1 <;> cases f2 <;> simp [saveFontPref, cliFontPayload]

/-- Witness for C3's amended claim: both writes failing leaves the file
untouched and only warns. -/
theorem saveFontPref_spec_witness :
    saveFontPref (some ⟨some "system", some 16⟩) "serif" true true
      = (some ⟨some "system", some 16⟩, true) :=
  (saveFontPref_spec (some ⟨some "system", some 16⟩) "serif" true true).2 rfl rfl

/-! ## C4: CLI exit codes -/

/-- C4 counterexample: the claim says the exit code is 1 when a listed
file does not exist.  With a single listed file that does not exist (and
the app bundle present), the loop prints `File not found: missing.md` to
stderr, `continue`s, and the process ends with exit code 0, not 1. -/
theorem runCli_missing_file_exits_zero :
    runCli ⟨false, none, ["missing.md"]⟩ ⟨fun _ => false, fun _ => false, true⟩
      = ⟨0, ["File not found: missing.md"], []⟩ ∧ (0 : Nat) ≠ 1 :=
  ⟨by decide, by decide⟩

theorem processFiles_spec (env : CliEnv) (files : List String) :
    (processFiles env files).2 = files.filter env.fileExists ∧
    ∀ f ∈ files, env.fileExists f = false →
      ("File not found: " ++ f) ∈ (processFiles env files).1 := by
  induction files with
  | nil => simp [processFiles]
  | cons f rest ih =>
    obtain ⟨ih2, ih1⟩ := ih
    refine ⟨?_, ?_⟩
    · cases hf : env.fileExists f <;> cases ho : env.openFails f <;>
        simp [processFiles, hf, ho, List.filter_cons, ih2]
    · intro g hg hgex
      rcases List.mem_cons.mp hg with h | h
      · subst h
        cases hf : env.fileExists g with
        | false => simp [processFiles, hf]
        | true => rw [hf] at hgex; exact absurd hgex (by decide)
      · have hmem := ih1 g h hgex
        cases hf : env.fileExists f <;> cases ho : env.openFails f <;>
          simp [processFiles, hf, ho, hmem]

/-- C4 amended: exit code 0 on `--help`; 1 when no file argument is
given; 1 on an unknown (truthy) font; 1 when the app bundle is missing;
and when the app is found, file-not-found for listed files is reported
per-file to stderr while the remaining files are still processed — but
the process then exits 0, not 1. -/
theorem runCli_exit_codes (args : CliArgs) (env : CliEnv) :
    (args.help = true → (runCli args env).exitCode = 0) ∧
    (args.help = false → args.positionals = [] → (runCli args env).exitCode = 1) ∧
    (args.help = false → args.positionals ≠ [] → jsTruthy args.font = true →
      FONT_NAMES.contains (args.font.getD "") = false → (runCli args env).exitCode = 1) ∧
    (args.help = false → args.positionals ≠ [] →
      (jsTruthy args.font = false ∨ FONT_NAMES.contains (args.font.getD "") = true) →
      env.appFound = true →
      (runCli args env).exitCode = 0 ∧
      (runCli args env).opened = args.positionals.filter env.fileExists ∧
      (∀ f ∈ args.positionals, env.fileExists f = false →
        ("File not found: " ++ f) ∈ (runCli args env).stderrLines)) := by
  refine ⟨?_, ?_, ?_, ?_⟩
  · intro hh; simp [runCli, hh]
  · intro hh hp; simp [runCli, hh, hp]
  · intro hh hp hf hc
    have hc' : args.font.getD "" ∉ FONT_NAMES := by simpa using hc
    simp [runCli, hh, hp, hf, hc']
  · intro hh hp hfc happ
    obtain ⟨h2, h1⟩ := processFiles_spec env args.positionals
    have c1 : ¬(args.help = true ∨ args.positionals = []) := by simp [hh, hp]
    have c2 : ¬(jsTruthy args.font = true ∧
        FONT_NAMES.contains (args.font.getD "") = false) := by
      rintro ⟨ha, hb⟩
      rcases hfc with h | h
      · rw [h] at ha; cases ha
      · rw [h] at hb; cases hb
    have c3 : ¬(env.appFound = false) := by rw [happ]; simp
    have hrun : runCli args env =
        ⟨0, (processFiles env args.positionals).1, (processFiles env args.positionals).2⟩ := by
      unfold runCli
      rw [if_neg c1, if_neg c2, if_neg c3]
    rw [hrun]
    exact ⟨rfl, h2, h1⟩

/-- Witness for C4's amended claim: `--help` exits 0; a run with one
existing and one missing file exits 0 and reports the missing file on
stderr. -/
theorem runCli_exit_codes_witness :
    (runCli ⟨true, none, []⟩ ⟨fun _ => true, fun _ => false, true⟩).exitCode = 0 ∧
    (runCli ⟨false, some "serif", ["a.md", "b.md"]⟩
      ⟨fun s => s == "a.md", fun _ => false, true⟩).exitCode = 0 ∧
    ("File not found: " ++ "b.md") ∈
      (runCli ⟨false, some "serif", ["a.md", "b.md"]⟩
        ⟨fun s => s == "a.md", fun _ => false, true⟩).stderrLines := by
  have h := runCli_exit_codes ⟨false, some "serif", ["a.md", "b.md"]⟩
    ⟨fun s => s == "a.md", fun _ => false, true⟩
  have h4 := h.2.2.2 rfl (by decide) (Or.inr (by decide)) rfl
  exact ⟨(runCli_exit_codes ⟨true, none, []⟩ ⟨fun _ => true, fun _ => false, true⟩).1 rfl,
    h4.1, h4.2.2 "b.md" (by decide) (by decide)⟩

/-! ## C5: relative-image `src` rewriting -/

/-- C5 counterexample: the claim says every scheme-qualified `src` passes
through unchanged, but the code only tests for the literal prefixes
`http`, `data:` and `/`: the scheme-qualified `ftp://h/a.png` is
rewritten to the file-access form instead of passing through. -/
theorem rewriteImgSrc_ftp_not_preserved :
    rewriteImgSrc "/docs" "ftp://h/a.png" = "asset://localhost//docs/ftp://h/a.png" ∧
    rewriteImgSrc "/docs" "ftp://h/a.png" ≠ "ftp://h/a.png" := by
  exact ⟨by decide, by decide⟩

/-- C5 amended: with a base directory set, a nonempty `src` starting with
none of `http`, `data:`, `/` is rewritten to `asset://localhost/ + dir +
/ + src` (this includes scheme-qualified sources such as `ftp://…` or
`file://…`); a `src` starting with `/` is rewritten to
`asset://localhost + src`; and a `src` starting with `http` (http and
https URLs) or `data:`, or an empty `src`, passes through unchanged. -/
theorem rewriteImgSrc_spec (dir src : String) :
    (src ≠ "" → strStartsWith src "http" = false → strStartsWith src "data:" = false →
      strStartsWith src "/" = false →
      rewriteImgSrc dir src = "asset://localhost/" ++ dir ++ "/" ++ src) ∧
    (strStartsWith src "/" = true → rewriteImgSrc dir src = "asset://localhost" ++ src) ∧
    ((strStartsWith src "http" = true ∨ strStartsWith src "data:" = true ∨ src = "") →
      strStartsWith src "/" = false → rewriteImgSrc dir src = src) := by
  refine ⟨?_, ?_, ?_⟩
  · intro h0 h1 h2 h3
    simp [rewriteImgSrc, h0, h1, h2, h3]
  · intro h3
    have h0 : src ≠ "" := by
      intro he
      subst he
      exact absurd h3 (by decide)
    simp [rewriteImgSrc, h0, h3]
  · intro hcase h3
    rcases hcase with h | h | h <;> simp [rewriteImgSrc, h, h3]

/-- Witness for C5's amended claim at concrete inputs. -/
theorem rewriteImgSrc_spec_witness :
    rewriteImgSrc "/docs" "rel.png" = "asset://localhost//docs/rel.png" ∧
    rewriteImgSrc "/docs" "/abs.png" = "asset://localhost/abs.png" ∧
    rewriteImgSrc "/docs" "http://x/y.png" = "http://x/y.png" := by
  have h := rewriteImgSrc_spec "/docs" "rel.png"
  have h2 := rewriteImgSrc_spec "/docs" "/abs.png"
  have h3 := rewriteImgSrc_spec "/docs" "http://x/y.png"
  exact ⟨h.1 (by decide) (by decide) (by decide) (by decide),
    h2.2.1 (by decide), h3.2.2 (Or.inl (by decide)) (by decide)⟩

/-! ## C6: session path state on open -/

/-- C6 counterexample: the claim says `currentFilePath` is null after any
`openFile` whose `readFile` request fails.  Starting from a state where
`/old.md` is open, a failing open leaves `currentFilePath = some
"/old.md"`, not null: the catch block only installs the error panel. -/
theorem openFileView_error_keeps_stale_path :
    (openFileView id ⟨some "/old.md", some "/", none, "old", []⟩
      (Except.error "boom")).currentFilePath = some "/old.md" ∧
    some "/old.md" ≠ (none : Option String) :=
  ⟨rfl, by decide⟩

/-- C6 amended: `currentFilePath`/`currentBaseDir` are set to the result's
canonical path and directory on success; on error the handler only
replaces the content area with the error panel and issues nothing —
the previous `currentFilePath` and `currentBaseDir` are retained (so they
are null after a failed open only when no file had been opened
before). -/
theorem openFileView_spec (render : String → String) (st : ViewState)
    (err : String) (r : FileRes) :
    (openFileView render st (Except.error err)).currentFilePath = st.currentFilePath ∧
    (openFileView render st (Except.error err)).currentBaseDir = st.currentBaseDir ∧
    (openFileView render st (Except.error err)).effects = st.effects ∧
    (openFileView render st (Except.error err)).contentHTML = errorPanel err ∧
    (openFileView render st (Except.ok r)).currentFilePath = some r.path ∧
    (openFileView render st (Except.ok r)).currentBaseDir = some r.dir := by
  simp [openFileView]

/-! ## C7: project-root discovery -/

theorem rootLoopGo_eq_nearest (git : List String → Bool) :
    ∀ (d : List String) (n : Nat), d.length + 1 ≤ n →
      rootLoopGo git n d = some (nearestGitAncestor git d) := by
  intro d
  induction d with
  | nil =>
    intro n hn
    match n, hn with
    | n + 1, _ =>
      rw [rootLoopGo]
      cases hg : git [] <;> simp [hg, nearestGitAncestor]
  | cons a t ih =>
    intro n hn
    match n, hn with
    | n + 1, hn =>
      rw [rootLoopGo]
      cases hg : git (a :: t) with
      | true => simp [hg, nearestGitAncestor]
      | false =>
        have hne : (a :: t).tail ≠ a :: t := by
          intro h
          exact absurd (congrArg List.length h) (by simp)
        rw [if_neg (by simp [hg]), if_neg hne, List.tail_cons]
        rw [ih n (by simp at hn; omega)]
        simp [nearestGitAncestor, hg]

theorem findProjectRoot_eq_nearest (git : List String → Bool) (isExistingDir : Bool)
    (p : List String) :
    findProjectRoot git isExistingDir p
      = nearestGitAncestor git (startDir isExistingDir p) := by
  unfold findProjectRoot pathDepth
  rw [rootLoopGo_eq_nearest git _ _ le_rfl]
  rfl

theorem nearestGitAncestor_none (git : List String → Bool) :
    ∀ d : List String, (∀ a, a <:+ d → git a = false) →
      nearestGitAncestor git d = none := by
  intro d
  induction d with
  | nil =>
    intro h
    simp [nearestGitAncestor, h [] List.suffix_rfl]
  | cons a t ih =>
    intro h
    have h1 : git (a :: t) = false := h _ List.suffix_rfl
    have h2 : ∀ b, b <:+ t → git b = false :=
      fun b hb => h b (hb.trans (List.suffix_cons a t))
    simp [nearestGitAncestor, h1, ih h2]

theorem nearestGitAncestor_some (git : List String → Bool) :
    ∀ d r : List String, nearestGitAncestor git d = some r →
      git r = true ∧ r <:+ d ∧ ∀ a, a <:+ d → git a = true → a <:+ r := by
  intro d
  induction d with
  | nil =>
    intro r h
    cases hg : git [] with
    | false => rw [nearestGitAncestor, if_neg (by simp [hg])] at h; cases h
    | true =>
      rw [nearestGitAncestor, if_pos (by simp [hg])] at h
      obtain rfl : ([] : List String) = r := Option.some.inj h
      refine ⟨hg, List.suffix_rfl, ?_⟩
      intro a ha _
      rw [List.suffix_nil.mp ha]
  | cons b t ih =>
    intro r h
    cases hg : git (b :: t) with
    | true =>
      rw [nearestGitAncestor, if_pos (by simp [hg])] at h
      obtain rfl : b :: t = r := Option.some.inj h
      exact ⟨hg, List.suffix_rfl, fun a ha _ => ha⟩
    | false =>
      rw [nearestGitAncestor, if_neg (by simp [hg])] at h
      obtain ⟨h1, h2, h3⟩ := ih r h
      refine ⟨h1, h2.trans (List.suffix_cons b t), ?_⟩
      intro a ha hga
      rcases List.suffix_cons_iff.mp ha with rfl | ha'
      · rw [hg] at hga; cases hga
      · exact h3 a ha' hga

/-- C7: the ancestor walk of `findProjectRoot` finishes within
`pathDepth p` probes of the `.git` marker (detecting the root by
`parent(dir) = dir`, i.e. `tail d = d`); when no ancestor-or-self of the
start directory carries the marker — including when the input is the
filesystem root itself — the result is `none`; and when the result is
`some r`, `r` is the nearest marked ancestor: it carries the marker, is
an ancestor-or-self of the start directory, and every marked
ancestor-or-self is an ancestor of `r` or `r` itself. -/
theorem findProjectRoot_spec (git : List String → Bool) (isExistingDir : Bool)
    (p : List String) :
    rootLoopGo git (pathDepth p) (startDir isExistingDir p)
      = some (nearestGitAncestor git (startDir isExistingDir p)) ∧
    ((∀ a, a <:+ startDir isExistingDir p → git a = false) →
      findProjectRoot git isExistingDir p = none) ∧
    (∀ r, findProjectRoot git isExistingDir p = some r →
      git r = true ∧ r <:+ startDir isExistingDir p ∧
      ∀ a, a <:+ startDir isExistingDir p → git a = true → a <:+ r) := by
  have hlen : (startDir isExistingDir p).length + 1 ≤ pathDepth p := by
    unfold startDir pathDepth
    cases isExistingDir <;> simp [List.length_tail]
  have hnear := findProjectRoot_eq_nearest git isExistingDir p
  refine ⟨rootLoopGo_eq_nearest git _ _ hlen, ?_, ?_⟩
  · intro h
    rw [hnear]
    exact nearestGitAncestor_none git _ h
  · intro r hr
    rw [hnear] at hr
    exact nearestGitAncestor_some git _ r hr

/-- Witness for C7: a markerless walk from `/x/y` (a file path) returns
`none`; with a marker at `/x`, the result `/x` carries the marker and is
its own ancestor. -/
theorem findProjectRoot_spec_witness :
    findProjectRoot (fun _ => false) false ["y", "x"] = none ∧
    (fun l : List String => l == ["x"]) ["x"] = true ∧ ["x"] <:+ ["x"] := by
  have h1 := (findProjectRoot_spec (fun _ => false) false ["y", "x"]).2.1 (fun a _ => rfl)
  have h2 := (findProjectRoot_spec (fun l : List String => l == ["x"]) false
    ["y", "x"]).2.2 ["x"] (by decide)
  exact ⟨h1, h2.1, h2.2.1⟩

/-! ## C8 and C9: menu-state synchronization and dispatch -/

/-- C8: every operation that mutates a `menuState` field rebuilds the
native menu before returning: the `syncFontMenu` and `setFileMenuEnabled`
handlers, the `setMdAssociation` handler on helper success (on failure it
leaves the state untouched), and the `font_*` and `associate_md`
menu-click branches, all leave the native menu equal to the projection of
the updated `menuState`; and every dispatch branch preserves that
invariant, so the menu never shows a stale checkmark or enabled
state. -/
theorem menuState_mutations_rebuild (st : HostState) (env : ClickEnv) (fontId : String)
    (enabled enable : Bool) (err : String) (action : String) :
    menuInv (syncFontMenuH st fontId) ∧
    menuInv (setFileMenuEnabledH st enabled) ∧
    menuInv ((setMdAssociationH st enable true err).1) ∧
    (setMdAssociationH st enable false err).1 = st ∧
    (strStartsWith action "font_" = true → menuInv (applicationMenuClicked env st action)) ∧
    (env.assocOk = true → menuInv (applicationMenuClicked env st "associate_md")) ∧
    (menuInv st → menuInv (applicationMenuClicked env st action)) := by
  refine ⟨rfl, rfl, rfl, rfl, ?_, ?_, ?_⟩
  · intro hfont
    have h1 : action ≠ "open_file" := by rintro rfl; exact absurd hfont (by decide)
    have h2 : action ≠ "install_cli" := by rintro rfl; exact absurd hfont (by decide)
    have h3 : action ≠ "associate_md" := by rintro rfl; exact absurd hfont (by decide)
    have h4 : action ≠ "export_pdf" := by rintro rfl; exact absurd hfont (by decide)
    unfold applicationMenuClicked
    rw [if_neg h1, if_neg h2, if_neg h3, if_neg h4, if_pos hfont]
    exact rfl
  · intro hok
    unfold applicationMenuClicked
    rw [if_neg (by decide), if_neg (by decide), if_pos rfl, if_pos hok]
    exact rfl
  · intro hinv
    unfold applicationMenuClicked
    split
    · cases env.dialogResult <;> exact hinv
    · split
      · exact hinv
      · split
        · split
          · exact rfl
          · exact hinv
        · split
          · exact hinv
          · split
            · exact rfl
            · split
              · exact hinv
              · exact hinv

/-- Witness for C8: a concrete font click and a concrete
`setMdAssociation` success both leave the menu equal to the projection of
the new state. -/
theorem menuState_mutations_rebuild_witness :
    menuInv (syncFontMenuH ⟨⟨false, "font_system", false⟩, [], []⟩ "font_serif") ∧
    menuInv (applicationMenuClicked ⟨none, "ok", true, "e"⟩
      ⟨⟨false, "font_system", false⟩, [], []⟩ "font_serif") ∧
    menuInv (applicationMenuClicked ⟨none, "ok", true, "e"⟩
      ⟨⟨false, "font_system", false⟩, [], []⟩ "associate_md") := by
  have h := menuState_mutations_rebuild ⟨⟨false, "font_system", false⟩, [], []⟩
    ⟨none, "ok", true, "e"⟩ "font_serif" true true "e" "font_serif"
  exact ⟨h.1, h.2.2.2.2.1 (by decide), h.2.2.2.2.2.1 rfl⟩

/-- C9: an action name matching none of the dispatch table's branches
(`open_file`, `install_cli`, `associate_md`, `export_pdf`, the `font_*`
prefix, `copy_file_path`, `copy_dir_path`, `copy_project_path`,
`reveal_finder`) leaves the Host state — `menuState`, native menu and
outbound message log — exactly unchanged; the handler is total, so no
error is raised. -/
theorem unknown_menu_action_noop (env : ClickEnv) (st : HostState) (action : String)
    (h1 : action ≠ "open_file") (h2 : action ≠ "install_cli")
    (h3 : action ≠ "associate_md") (h4 : action ≠ "export_pdf")
    (h5 : strStartsWith action "font_" = false)
    (h6 : action ≠ "copy_file_path") (h7 : action ≠ "copy_dir_path")
    (h8 : action ≠ "copy_project_path") (h9 : action ≠ "reveal_finder") :
    applicationMenuClicked env st action = st := by
  unfold applicationMenuClicked
  rw [if_neg h1, if_neg h2, if_neg h3, if_neg h4, if_neg (by simp [h5]),
    if_neg (by simp [h6, h7, h8, h9])]

/-- Witness for C9 at a concrete unknown action name. -/
theorem unknown_menu_action_noop_witness :
    applicationMenuClicked ⟨none, "ok", true, "e"⟩
      ⟨⟨false, "font_system", false⟩, [], []⟩ "bogus"
      = ⟨⟨false, "font_system", false⟩, [], []⟩ :=
  unknown_menu_action_noop _ _ _ (by decide) (by decide) (by decide) (by decide)
    (by decide) (by decide) (by decide) (by decide) (by decide)

/-! ## C10: render-surface menuAction guard -/

/-- C10: with no successfully opened file (`currentFilePath` falsy), the
Render Surface's `menuAction` handler returns immediately for every
action value: the state, including the log of host requests issued, is
exactly unchanged. -/
theorem menuActionView_noFile_noop (st : ViewState) (action : String)
    (h : jsTruthy st.currentFilePath = false) :
    menuActionView st action = st := by
  unfold menuActionView
  rw [if_pos h]

/-- Witness for C10 at a concrete empty state and action. -/
theorem menuActionView_noFile_noop_witness :
    menuActionView ⟨none, none, none, "", []⟩ "copy_file_path"
      = ⟨none, none, none, "", []⟩ :=
  menuActionView_noFile_noop ⟨none, none, none, "", []⟩ "copy_file_path" rfl

end Mdview
